import Mathlib

/-!
Verification development for the DynamoDB PITR restore orchestrator.

The repository contains two variants of the script:
* `src/scripts/restore-dynamodb-pitr/restore_dynamodb_pitr.py` (the current
  variant: restore-point-derived table names, advisory item-count check,
  pre-validation existence / stale-table handling), and
* `src/scripts/restore_dynamodb_pitr.py` (the legacy variant: wall-clock
  table names and a hard-gate item-count check).

Definitions below are shallow embeddings of the Python functions.  The
orchestrator's `run` method is modelled as a function from a configuration
and an environment (the oracle answering provider calls) to a trace of
provider-visible events plus the final outcome.  Provider exceptions other
than the `ResourceNotFoundException` answers explicitly handled by the
script are outside the model (the environment is total), and the purely
diagnostic `describe_table` calls on the `InvalidRestoreTimeException`
error path of `_initiate_pitr_restores` are elided (they are non-mutating
and occur after validation).
-/

/-- Model of a Python `datetime` as produced by `dateutil.parser.isoparse`
followed by `pytz` localization: civil fields plus a resolved UTC offset in
minutes.  All fields are the ones the script reads. -/
structure PyDateTime where
  year : Nat
  month : Nat
  day : Nat
  hour : Nat
  minute : Nat
  second : Nat
  microsecond : Nat
  offsetMinutes : Int
  deriving DecidableEq

/-- Days since the Unix epoch for a civil date (Howard Hinnant's
`days_from_civil` algorithm); used to give each `PyDateTime` an absolute
instant so that distinct recovery points can be told apart. -/
def daysFromCivil (y m d : Int) : Int :=
  let y2 := if m ≤ 2 then y - 1 else y
  let era : Int := (if 0 ≤ y2 then y2 else y2 - 399) / 400
  let yoe := y2 - era * 400
  let mp := (m + 9) % 12
  let doy := (153 * mp + 2) / 5 + d - 1
  let doe := yoe * 365 + yoe / 4 - yoe / 100 + doy
  era * 146097 + doe - 719468

/-- Absolute instant of a datetime, in microseconds since the Unix epoch
(subtracting the UTC offset exactly as `astimezone(pytz.UTC)` does). -/
def instantMicros (p : PyDateTime) : Int :=
  (daysFromCivil (p.year : Int) (p.month : Int) (p.day : Int) * 86400
      + ((p.hour : Int) * 3600 + (p.minute : Int) * 60 + (p.second : Int))) * 1000000
    + (p.microsecond : Int) - p.offsetMinutes * 60000000

/-- Zero-padded decimal rendering, as `strftime` field formatting does. -/
def padNum (w n : Nat) : String :=
  let s := toString n
  String.mk (List.replicate (w - s.length) '0') ++ s

/-- Model of `restore_dt.strftime('%Y%m%d%H%M%S')` (line 158 of the current
variant): the local civil fields down to seconds, dropping the microsecond
field and the UTC offset. -/
def strftimeToken (p : PyDateTime) : String :=
  padNum 4 p.year ++ padNum 2 p.month ++ padNum 2 p.day
    ++ padNum 2 p.hour ++ padNum 2 p.minute ++ padNum 2 p.second

/-- Model of `DynamoDBPITRRestore._configure_table_names`: the three
production table names, with a `-dev` suffix in the `dev` environment. -/
def configureTableNames (environment : String) : List String :=
  let baseNames := ["quote-lambda-tf-quotes", "quote-lambda-tf-user-likes",
    "quote-lambda-tf-user-views"]
  baseNames.map (fun b => if environment == "dev" then b ++ "-dev" else b)

/-- Model of `DynamoDBPITRRestore._get_restore_table_names` (current
variant, lines 395-407): when `restore_point_timestamp` is unset the token
falls back to the wall clock `now`, otherwise the stored recovery-point
token is used. -/
def getRestoreTableNames (tables : List String) (restorePointTimestamp : Option String)
    (now : PyDateTime) : List String :=
  let timestamp := match restorePointTimestamp with
    | none => strftimeToken now
    | some t => t
  tables.map (fun t => t ++ "-restore-" ++ timestamp)

/-- The spec's `restoreTableName(t, p)`: the name the current variant uses
during `run`, where `restore_point_timestamp` has been set from the parsed
recovery point (line 158) before `_get_restore_table_names` is called. -/
def restoreTableName (t : String) (p : PyDateTime) : String :=
  t ++ "-restore-" ++ strftimeToken p

/-- Model of Python `str.startswith`. -/
def strStartsWith (s p : String) : Bool :=
  p.data.isPrefixOf s.data

/-- Model of `DynamoDBPITRRestore._find_old_restore_tables` (lines 248-269):
among all listed table names, keep those that start with some production
table name followed by `-restore-` and are not among the current recovery
point's restore table names. -/
def findOldRestoreTables (tables currentNames allNames : List String) : List String :=
  allNames.filter (fun n =>
    (tables.any fun t => strStartsWith n (t ++ "-restore-")) && !(decide (n ∈ currentNames)))

/-- Outcome of recovery-point validation.  The script returns a bare
boolean but distinguishes the two rejection reasons in its branches and
log messages (lines 308-314); the spec names them TooOld and Future. -/
inductive ValidationResult where
  | tooOld
  | future
  | ok
  deriving DecidableEq

/-- The 35-day retention bound, in microseconds (`timedelta(days=35)`). -/
def maxAgeMicros : Int := 35 * 86400 * 1000000

/-- Model of `DynamoDBPITRRestore._validate_restore_point` (lines 286-320):
`age` is `now_utc - restore_dt_utc` in microseconds; reject ages above the
35-day bound, then reject negative ages, else accept. -/
def validateRestorePoint (age : Int) : ValidationResult :=
  if maxAgeMicros < age then ValidationResult.tooOld
  else if age < 0 then ValidationResult.future
  else ValidationResult.ok

/-- Outcome classification of one table's item counts in the current
variant's `_verify_item_counts` (lines 479-494). -/
inductive CountOutcome where
  | equal
  | restoreLower
  | restoreHigherWarn
  deriving DecidableEq

/-- Per-table classification: restored count above the original is the
anomalous warning case, below is the expected case, equal matches. -/
def classifyCounts (orig restored : Nat) : CountOutcome :=
  if orig < restored then CountOutcome.restoreHigherWarn
  else if restored < orig then CountOutcome.restoreLower
  else CountOutcome.equal

/-- Model of the current variant's `_verify_item_counts` (lines 464-499):
classifies every (original, restored) count pair and always succeeds. -/
def verifyItemCounts (counts : List (Nat × Nat)) : List CountOutcome × Bool :=
  (counts.map (fun c => classifyCounts c.1 c.2), true)

/-- Model of the legacy variant's `_verify_item_counts`
(`src/scripts/restore_dynamodb_pitr.py`, lines 300-329): returns failure at
the first pair whose counts differ. -/
def verifyItemCountsLegacy : List (Nat × Nat) → Bool
  | [] => true
  | (o, r) :: rest => if o ≠ r then false else verifyItemCountsLegacy rest

/-- Provider-visible events and internal markers emitted by one run of the
current variant's `DynamoDBPITRRestore.run`.  `describe`, `listTables` and
`scanCount` are read-only provider calls; `deleteTable`, `initiate`,
`clearTable` and `copyTable` are mutating provider calls (`clearTable` and
`copyTable` abstract the scan-plus-batched-write cycles of `_clear_table`
and `_copy_table_data`, whose request streams are modelled separately by
`clearTableRequests` and `copyTableRequests`).  `lockTry` and `validate`
are local markers for lock acquisition and recovery-point validation. -/
inductive Event where
  | status (s : String) (err : Option String)
  | describe (name : String)
  | listTables
  | deleteTable (name : String)
  | lockTry (ok : Bool)
  | validate (r : ValidationResult)
  | initiate (src tgt : String)
  | pollStart
  | pollDescribe (name : String)
  | scanCount (name : String)
  | clearTable (name : String)
  | copyTable (src tgt : String)
  deriving DecidableEq

/-- An event is a mutating provider call. -/
def Event.isMutating : Event → Bool
  | Event.deleteTable _ => true
  | Event.initiate _ _ => true
  | Event.clearTable _ => true
  | Event.copyTable _ _ => true
  | _ => false

/-- An event is a provider call (read-only or mutating). -/
def Event.isProviderCall : Event → Bool
  | Event.describe _ => true
  | Event.listTables => true
  | Event.deleteTable _ => true
  | Event.initiate _ _ => true
  | Event.pollDescribe _ => true
  | Event.scanCount _ => true
  | Event.clearTable _ => true
  | Event.copyTable _ _ => true
  | _ => false

/-- The recovery-point validation marker. -/
def Event.isValidate : Event → Bool
  | Event.validate _ => true
  | _ => false

/-- Run configuration: the CLI environment name, the dry-run flag, and the
parsed (and, when naive, localized) recovery point. -/
structure Config where
  environment : String
  dryRun : Bool
  restorePoint : PyDateTime

/-- The environment oracle answering the run's external interactions:
describe answers during the existence check, the table listing, the wall
clock, lock acquisition, per-table restore-initiation outcomes, the poll
describe answers per round, the timeout budget in poll rounds, scan
counts, and per-table swap outcomes. -/
structure Env where
  describeStatus : String → Option String
  allTableNames : List String
  nowMicros : Int
  lockOk : Bool
  initiateRes : String → Bool
  pollStatus : Nat → String → Option String
  maxRounds : Nat
  counts : String → Nat
  swapRes : String → Bool

/-- Outcome of a run: the event trace, the boolean `run` returns, and the
final status record (state plus optional error message). -/
structure RunOut where
  events : List Event
  success : Bool
  finalStatus : String
  errorMessage : Option String
  deriving DecidableEq

/-- Exit code of `main`: `sys.exit(0 if success else 1)`. -/
def exitCode (success : Bool) : Nat :=
  if success then 0 else 1

/-- The three restore table names for this run, derived from the recovery
point exactly as `run` does (lines 158-161): the token is stored from the
parsed restore point, then `_get_restore_table_names` is called. -/
def currentRestoreNames (c : Config) : List String :=
  getRestoreTableNames (configureTableNames c.environment)
    (some (strftimeToken c.restorePoint)) c.restorePoint

/-- Result of `_check_existing_restore_tables` (lines 235-246): the current
restore table names the provider knows, with their status. -/
def existingOf (c : Config) (env : Env) : List (String × String) :=
  (currentRestoreNames c).filterMap (fun n => (env.describeStatus n).map (fun s => (n, s)))

/-- The `skip_restore` flag of `run` (lines 164-178). -/
def skipRestoreOf (c : Config) (env : Env) : Bool :=
  !(existingOf c env).isEmpty

/-- Age of the recovery point at validation time (`now_utc -
restore_dt_utc`), in microseconds. -/
def ageOf (c : Config) (env : Env) : Int :=
  env.nowMicros - instantMicros c.restorePoint

/-- Events of `run` up to (excluding) recovery-point validation, lines
142-188: the INITIALIZING status write, the existence describes, and —
when no current restore table exists — the stale-table listing and, outside
dry-run, the stale-table deletions. -/
def preValidateEvents (c : Config) (env : Env) : List Event :=
  Event.status "INITIALIZING" none ::
    ((currentRestoreNames c).map Event.describe ++
      (if (existingOf c env).isEmpty then
        Event.listTables ::
          (if c.dryRun then []
           else (findOldRestoreTables (configureTableNames c.environment)
              (currentRestoreNames c) env.allTableNames).map Event.deleteTable)
       else []))

/-- The per-table loop of `_initiate_pitr_restores` (lines 342-389): each
restore call is issued in order; a provider rejection stops the loop and
fails the phase. -/
def initiateLoop : List (String × String) → (String → Bool) → List Event × Bool
  | [], _ => ([], true)
  | (src, tgt) :: rest, res =>
    if res src then
      let r := initiateLoop rest res
      (Event.initiate src tgt :: r.1, r.2)
    else ([Event.initiate src tgt], false)

/-- `_initiate_pitr_restores` (lines 322-393): in dry-run mode every table
is skipped and the phase succeeds without provider calls. -/
def initiatePhase (dryRun : Bool) (pairs : List (String × String))
    (res : String → Bool) : List Event × Bool :=
  if dryRun then ([], true) else initiateLoop pairs res

/-- The polling loop of `_poll_restore_completion` (lines 421-458): on each
round every restore table is described (skipped wholesale in dry-run, in
which case `all_active` stays true and the first round succeeds); a missing
table counts as not ready; the loop times out when the round budget is
exhausted. -/
def pollLoop (dryRun : Bool) (names : List String) (st : Nat → String → Option String) :
    Nat → Nat → List Event × Bool
  | _, 0 => ([], false)
  | round, fuel + 1 =>
    if dryRun then ([], true)
    else
      let evs := names.map Event.pollDescribe
      if names.all (fun n => st round n == some "ACTIVE") then (evs, true)
      else
        let r := pollLoop dryRun names st (round + 1) fuel
        (evs ++ r.1, r.2)

/-- `_poll_restore_completion` (lines 409-462), starting with the poll
announcement log line. -/
def pollPhase (c : Config) (env : Env) : List Event × Bool :=
  let r := pollLoop c.dryRun (currentRestoreNames c) env.pollStatus 0 env.maxRounds
  (Event.pollStart :: r.1, r.2)

/-- The count pairs read by `_verify_item_counts` (lines 469-477): one
(original, restored) pair per table, none in dry-run mode. -/
def verifyCountPairs (c : Config) (env : Env) : List (Nat × Nat) :=
  if c.dryRun then []
  else ((configureTableNames c.environment).zip (currentRestoreNames c)).map
    (fun pr => (env.counts pr.1, env.counts pr.2))

/-- The scan events of `_verify_item_counts`: two COUNT scans per table,
none in dry-run mode. -/
def verifyEventsOf (c : Config) : List Event :=
  if c.dryRun then []
  else ((configureTableNames c.environment).zip (currentRestoreNames c)).flatMap
    (fun pr => [Event.scanCount pr.1, Event.scanCount pr.2])

/-- The per-table loop of `_swap_data` / `_swap_table_data` (lines 513-552):
for each table, read the key schema, clear the production table, copy the
restore table's data in; a failure stops the loop. -/
def swapLoop : List (String × String) → (String → Bool) → List Event × Bool
  | [], _ => ([], true)
  | (orig, rt) :: rest, res =>
    let evs := [Event.describe orig, Event.clearTable orig, Event.copyTable rt orig]
    if res orig then
      let r := swapLoop rest res
      (evs ++ r.1, r.2)
    else (evs, false)

/-- `_delete_restore_tables` (lines 661-684): outside dry-run, each restore
table deletion is attempted (failures only affect a warning). -/
def deletePhase (dryRun : Bool) (names : List String) : List Event :=
  if dryRun then [] else names.map Event.deleteTable

/-- The initiation step of `run` (lines 197-202): skipped entirely — with
success — when restore tables for this recovery point already exist. -/
def initiateOutcome (c : Config) (env : Env) : List Event × Bool :=
  if skipRestoreOf c env then ([], true)
  else initiatePhase c.dryRun
    ((configureTableNames c.environment).zip (currentRestoreNames c)) env.initiateRes

/-- The swap step of `run` (lines 513-532): skipped per table in dry-run. -/
def swapOutcome (c : Config) (env : Env) : List Event × Bool :=
  if c.dryRun then ([], true)
  else swapLoop ((configureTableNames c.environment).zip (currentRestoreNames c)) env.swapRes

/-- The body of the with-lock block of `run` (lines 197-228): initiation
(skipped when restore tables for this recovery point already exist),
polling, the advisory count check, the swap, the restore-table cleanup,
and the COMPLETED status; each phase failure writes a FAILED status with
its specific reason and stops. -/
def pipelineRun (c : Config) (env : Env) : RunOut :=
  let rnames := currentRestoreNames c
  let ini := initiateOutcome c env
  if ini.2 then
    let pol := pollPhase c env
    if pol.2 then
      let ver := verifyEventsOf c
      if (verifyItemCounts (verifyCountPairs c env)).2 then
        let swp := swapOutcome c env
        if swp.2 then
          let del := deletePhase c.dryRun rnames
          ⟨ini.1 ++ pol.1 ++ ver ++ swp.1 ++ del ++ [Event.status "COMPLETED" none],
            true, "COMPLETED", none⟩
        else ⟨ini.1 ++ pol.1 ++ ver ++ swp.1 ++
            [Event.status "FAILED" (some "Data swap failed")],
          false, "FAILED", some "Data swap failed"⟩
      else ⟨ini.1 ++ pol.1 ++ ver ++ [Event.status "FAILED" (some "Item count mismatch")],
        false, "FAILED", some "Item count mismatch"⟩
    else ⟨ini.1 ++ pol.1 ++ [Event.status "FAILED" (some "Restore operation timed out")],
      false, "FAILED", some "Restore operation timed out"⟩
  else ⟨ini.1 ++ [Event.status "FAILED" (some "Failed to initiate PITR restores")],
    false, "FAILED", some "Failed to initiate PITR restores"⟩

/-- `run` from recovery-point validation onwards (lines 189-233): a failed
validation writes FAILED "Invalid restore point"; a failed lock acquisition
raises, is caught by the outer handler and writes FAILED with the
`RuntimeError` message; otherwise the locked pipeline executes. -/
def postValidateRun (c : Config) (env : Env) : RunOut :=
  if validateRestorePoint (ageOf c env) = ValidationResult.ok then
    if env.lockOk then
      let p := pipelineRun c env
      ⟨Event.lockTry true :: p.events, p.success, p.finalStatus, p.errorMessage⟩
    else
      ⟨[Event.lockTry false, Event.status "FAILED" (some "Could not acquire restore lock")],
        false, "FAILED", some "Could not acquire restore lock"⟩
  else
    ⟨[Event.status "FAILED" (some "Invalid restore point")],
      false, "FAILED", some "Invalid restore point"⟩

/-- Model of the current variant's `DynamoDBPITRRestore.run` (lines
142-233): the pre-validation block, the validation itself, then the rest
of the pipeline. -/
def runModelNew (c : Config) (env : Env) : RunOut :=
  let post := postValidateRun c env
  ⟨preValidateEvents c env ++
      Event.validate (validateRestorePoint (ageOf c env)) :: post.events,
    post.success, post.finalStatus, post.errorMessage⟩

/-- A table row: attribute names mapped to (string-modelled) values. -/
abbrev Item := List (String × String)

/-- The batch slicing of `_clear_table` / `_copy_table_data` (lines 569-571
and 620-622): `for i in range(0, len(items), 25): items[i:i+25]`. -/
def chunks25 {α : Type} (l : List α) : List (List α) :=
  if h : l.isEmpty then []
  else l.take 25 :: chunks25 (l.drop 25)
termination_by l.length
decreasing_by
  simp only [List.length_drop]
  have hl : 0 < l.length := by
    cases l with
    | nil => simp at h
    | cons a as => exact Nat.succ_pos _
  exact Nat.sub_lt hl (by norm_num)

/-- The key projection of `_clear_table` (line 575): `key = {k: item[k] for
k in key_names}`, looking each key attribute up in the row. -/
def projectKey (keyNames : List String) (it : Item) : List (String × Option String) :=
  keyNames.map (fun k => (k, it.lookup k))

/-- The deletion batches `_clear_table` (lines 554-610) issues for a
production table: every scan page, in order, is sliced into 25-row chunks
and each chunk becomes one `batch_write_item` request of key deletions. -/
def clearTableRequests (keyNames : List String) (pages : List (List Item)) :
    List (List (List (String × Option String))) :=
  pages.flatMap (fun pg => (chunks25 pg).map (List.map (projectKey keyNames)))

/-- The write batches `_copy_table_data` (lines 612-659) issues into a
production table: every scan page of the restore table, in order, is
sliced into 25-row chunks and each chunk becomes one `batch_write_item`
request of puts. -/
def copyTableRequests (pages : List (List Item)) : List (List Item) :=
  pages.flatMap chunks25

/-- Recovery point fixture: 2025-06-01 12:00:00.000000 at UTC offset
+02:00 (Europe/Berlin summer time). -/
def pointA : PyDateTime := ⟨2025, 6, 1, 12, 0, 0, 0, 120⟩

/-- A recovery point half a second after `pointA`: a genuinely different
instant whose second-precision token is the same. -/
def pointB : PyDateTime := ⟨2025, 6, 1, 12, 0, 0, 500000, 120⟩

/-- A recovery point one full second after `pointA`: its token differs. -/
def pointC : PyDateTime := ⟨2025, 6, 1, 12, 0, 1, 0, 120⟩

/-- A dev-environment run configuration at `pointA`, not in dry-run. -/
def cfgDev : Config := ⟨"dev", false, pointA⟩

/-- The dev-environment configuration with dry-run enabled. -/
def cfgDry : Config := ⟨"dev", true, pointA⟩

/-- A stale restore table name left over from an earlier recovery point. -/
def staleName : String := "quote-lambda-tf-quotes-dev-restore-20240101000000"

/-- Baseline environment: no restore table exists yet, the clock equals
the recovery point `pointA` (age zero), the lock is free, every restore
initiation succeeds, every table is ACTIVE at the first poll, counts are
zero and every swap succeeds. -/
def baseEnv : Env where
  describeStatus := fun _ => none
  allTableNames := []
  nowMicros := instantMicros pointA
  lockOk := true
  initiateRes := fun _ => true
  pollStatus := fun _ _ => some "ACTIVE"
  maxRounds := 1
  counts := fun _ => 0
  swapRes := fun _ => true

/-- Environment in which the provider lists one stale restore table. -/
def envStale : Env := { baseEnv with allTableNames := [staleName] }

/-- Environment with a stale restore table and a held (non-stale) lock. -/
def envLockFail : Env := { envStale with lockOk := false }

/-- Environment in which all three current restore tables already exist
and are ACTIVE. -/
def envExisting : Env := { baseEnv with describeStatus := fun _ => some "ACTIVE" }

/-- Environment whose poll budget is already exhausted: readiness polling
times out. -/
def envTimeout : Env := { baseEnv with maxRounds := 0 }

/-- Environment observed 35 days plus one microsecond after `pointA`. -/
def envTooOld : Env := { baseEnv with nowMicros := instantMicros pointA + maxAgeMicros + 1 }

/-- Appending on the left of a string is injective. -/
theorem string_append_left_cancel (s a b : String) (h : s ++ a = s ++ b) : a = b := by
  have hd := congrArg String.data h
  simp only [String.data_append] at hd
  exact String.ext (List.append_cancel_left hd)

/-- Concatenating the 25-chunks of a list gives back the list. -/
theorem chunks25_flatten {α : Type} (l : List α) : (chunks25 l).flatten = l := by
  induction l using chunks25.induct with
  | case1 l h => rw [chunks25]; simp [List.isEmpty_iff.mp h]
  | case2 l h ih =>
    rw [chunks25, dif_neg h, List.flatten_cons, ih]
    exact List.take_append_drop 25 l

/-- Every 25-chunk holds between 1 and 25 elements. -/
theorem chunks25_mem {α : Type} (l : List α) :
    ∀ b ∈ chunks25 l, b.length ≤ 25 ∧ b ≠ [] := by
  induction l using chunks25.induct with
  | case1 l h => rw [chunks25, dif_pos h]; intro b hb; simp at hb
  | case2 l h ih =>
    rw [chunks25, dif_neg h]
    intro b hb
    rcases List.mem_cons.mp hb with h1 | h2
    · subst h1
      have h0 : 0 < l.length := by
        cases l with
        | nil => simp at h
        | cons a as => exact Nat.succ_pos _
      constructor
      · rw [List.length_take]
        exact Nat.min_le_left _ _
      · intro hnil
        have hlen := congrArg List.length hnil
        simp only [List.length_take, List.length_nil] at hlen
        omega
    · exact ih b h2

/-- The deletion batches of `_clear_table`, concatenated, are exactly the
key projections of all scanned rows, in order. -/
theorem clearTableRequests_flatten (keyNames : List String) (pages : List (List Item)) :
    (clearTableRequests keyNames pages).flatten = pages.flatten.map (projectKey keyNames) := by
  induction pages with
  | nil => rfl
  | cons pg rest ih =>
    show (((chunks25 pg).map (List.map (projectKey keyNames))) ++
        clearTableRequests keyNames rest).flatten = (pg ++ rest.flatten).map (projectKey keyNames)
    rw [List.flatten_append, ih, List.map_append, ← List.map_flatten, chunks25_flatten]

/-- The write batches of `_copy_table_data`, concatenated, are exactly the
scanned rows of the source table, in order. -/
theorem copyTableRequests_flatten (pages : List (List Item)) :
    (copyTableRequests pages).flatten = pages.flatten := by
  induction pages with
  | nil => rfl
  | cons pg rest ih =>
    show ((chunks25 pg) ++ copyTableRequests rest).flatten = pg ++ rest.flatten
    rw [List.flatten_append, ih, chunks25_flatten]

/-- Every issued deletion batch has between 1 and 25 requests. -/
theorem clearTableRequests_mem {keyNames : List String} {pages : List (List Item)}
    {b : List (List (String × Option String))} (h : b ∈ clearTableRequests keyNames pages) :
    b.length ≤ 25 ∧ b ≠ [] := by
  rcases List.mem_flatMap.mp h with ⟨pg, _, hb⟩
  rcases List.mem_map.mp hb with ⟨b0, hb0, rfl⟩
  have := chunks25_mem pg b0 hb0
  constructor
  · simpa using this.1
  · simpa using this.2

/-- Every issued write batch has between 1 and 25 requests. -/
theorem copyTableRequests_mem {pages : List (List Item)} {b : List Item}
    (h : b ∈ copyTableRequests pages) : b.length ≤ 25 ∧ b ≠ [] := by
  rcases List.mem_flatMap.mp h with ⟨pg, _, hb⟩
  exact chunks25_mem pg b hb

/-- No production table name starts with a production table name followed
by the restore separator (checked for both environments' concrete sets). -/
theorem prod_not_restore_prefixed (environment : String) :
    ∀ n ∈ configureTableNames environment, ∀ t ∈ configureTableNames environment,
      strStartsWith n (t ++ "-restore-") = false := by
  intro n hn t ht
  simp only [configureTableNames] at hn ht
  by_cases he : (environment == "dev") = true
  · simp only [he, if_true, List.map_cons, List.map_nil, List.mem_cons,
      List.not_mem_nil, or_false] at hn ht
    rcases hn with rfl | rfl | rfl <;> rcases ht with rfl | rfl | rfl <;> decide
  · rw [Bool.not_eq_true] at he
    simp only [he, Bool.false_eq_true, if_false, List.map_cons, List.map_nil, List.mem_cons,
      List.not_mem_nil, or_false] at hn ht
    rcases hn with rfl | rfl | rfl <;> rcases ht with rfl | rfl | rfl <;> decide

/-- Specification of the stale-restore-table search: every selected name
matches some production name's restore pattern, is not a current restore
table name, and is not a production table name. -/
theorem findOldRestoreTables_spec (environment : String) (currentNames allNames : List String) :
    ∀ n ∈ findOldRestoreTables (configureTableNames environment) currentNames allNames,
      ((configureTableNames environment).any fun t => strStartsWith n (t ++ "-restore-")) = true ∧
      n ∉ currentNames ∧ n ∉ configureTableNames environment := by
  intro n hn
  have hf := List.mem_filter.mp hn
  rw [Bool.and_eq_true] at hf
  obtain ⟨-, h1, h2⟩ := hf
  have hcur : n ∉ currentNames := by simpa using h2
  refine ⟨h1, hcur, ?_⟩
  intro hmem
  rcases List.any_eq_true.mp h1 with ⟨t, ht, hstart⟩
  have := prod_not_restore_prefixed environment n hmem t ht
  rw [this] at hstart
  exact Bool.false_ne_true hstart

/-- Shape of the events emitted before recovery-point validation: the
INITIALIZING status write, existence describes of the current restore
table names, the stale-table listing, and — outside dry-run only — the
deletion of the stale tables found. -/
theorem preValidateEvents_shape (c : Config) (env : Env) :
    ∀ e ∈ preValidateEvents c env,
      (∃ s err, e = Event.status s err) ∨
      (∃ n, n ∈ currentRestoreNames c ∧ e = Event.describe n) ∨
      e = Event.listTables ∨
      (c.dryRun = false ∧ ∃ n, n ∈ findOldRestoreTables (configureTableNames c.environment)
        (currentRestoreNames c) env.allTableNames ∧ e = Event.deleteTable n) := by
  intro e he
  simp only [preValidateEvents] at he
  rcases List.mem_cons.mp he with h | h
  · exact Or.inl ⟨_, _, h⟩
  rcases List.mem_append.mp h with h | h
  · rcases List.mem_map.mp h with ⟨n, hn, rfl⟩
    exact Or.inr (Or.inl ⟨n, hn, rfl⟩)
  · split at h
    · rcases List.mem_cons.mp h with h | h
      · exact Or.inr (Or.inr (Or.inl h))
      · split at h
        · simp at h
        · next hdry =>
          rcases List.mem_map.mp h with ⟨n, hn, rfl⟩
          exact Or.inr (Or.inr (Or.inr ⟨Bool.not_eq_true _ ▸ hdry, n, hn, rfl⟩))
    · simp at h

/-- Initiation-loop events are restore initiations only. -/
theorem initiateLoop_shape (pairs : List (String × String)) (res : String → Bool) :
    ∀ e ∈ (initiateLoop pairs res).1, ∃ s t, e = Event.initiate s t := by
  induction pairs with
  | nil => intro e he; simp [initiateLoop] at he
  | cons pr rest ih =>
    intro e he
    obtain ⟨src, tgt⟩ := pr
    simp only [initiateLoop] at he
    split at he
    · rcases List.mem_cons.mp he with h | h
      · exact ⟨src, tgt, h⟩
      · exact ih e h
    · rcases List.mem_cons.mp he with h | h
      · exact ⟨src, tgt, h⟩
      · simp at h

/-- Initiation-step events are restore initiations only. -/
theorem initiateOutcome_shape (c : Config) (env : Env) :
    ∀ e ∈ (initiateOutcome c env).1, ∃ s t, e = Event.initiate s t := by
  intro e he
  simp only [initiateOutcome] at he
  split at he
  · simp at he
  · simp only [initiatePhase] at he
    split at he
    · simp at he
    · exact initiateLoop_shape _ _ e he

/-- Poll-loop events are poll describes only. -/
theorem pollLoop_shape (dryRun : Bool) (names : List String) (st : Nat → String → Option String) :
    ∀ (round fuel : Nat), ∀ e ∈ (pollLoop dryRun names st round fuel).1,
      ∃ n, e = Event.pollDescribe n := by
  intro round fuel
  induction fuel generalizing round with
  | zero => intro e he; simp [pollLoop] at he
  | succ f ih =>
    intro e he
    simp only [pollLoop] at he
    split at he
    · simp at he
    · split at he
      · rcases List.mem_map.mp he with ⟨n, _, rfl⟩
        exact ⟨n, rfl⟩
      · rcases List.mem_append.mp he with h | h
        · rcases List.mem_map.mp h with ⟨n, _, rfl⟩
          exact ⟨n, rfl⟩
        · exact ih (round + 1) e h

/-- Poll-phase events are the poll announcement and poll describes. -/
theorem pollPhase_shape (c : Config) (env : Env) :
    ∀ e ∈ (pollPhase c env).1, e = Event.pollStart ∨ ∃ n, e = Event.pollDescribe n := by
  intro e he
  simp only [pollPhase] at he
  rcases List.mem_cons.mp he with h | h
  · exact Or.inl h
  · exact Or.inr (pollLoop_shape _ _ _ _ _ e h)

/-- Count-verification events are COUNT scans only. -/
theorem verifyEventsOf_shape (c : Config) :
    ∀ e ∈ verifyEventsOf c, ∃ n, e = Event.scanCount n := by
  intro e he
  simp only [verifyEventsOf] at he
  split at he
  · simp at he
  · rcases List.mem_flatMap.mp he with ⟨pr, _, hpr⟩
    rcases List.mem_cons.mp hpr with h | h
    · exact ⟨pr.1, h⟩
    · rcases List.mem_cons.mp h with h | h
      · exact ⟨pr.2, h⟩
      · simp at h

/-- Swap-loop events are key-schema describes, table clears, and copies. -/
theorem swapLoop_shape (pairs : List (String × String)) (res : String → Bool) :
    ∀ e ∈ (swapLoop pairs res).1,
      (∃ n, e = Event.describe n) ∨ (∃ n, e = Event.clearTable n) ∨
      (∃ s t, e = Event.copyTable s t) := by
  induction pairs with
  | nil => intro e he; simp [swapLoop] at he
  | cons pr rest ih =>
    intro e he
    obtain ⟨orig, rt⟩ := pr
    simp only [swapLoop] at he
    split at he
    · rcases List.mem_append.mp he with h | h
      · rcases List.mem_cons.mp h with h | h
        · exact Or.inl ⟨orig, h⟩
        · rcases List.mem_cons.mp h with h | h
          · exact Or.inr (Or.inl ⟨orig, h⟩)
          · rcases List.mem_cons.mp h with h | h
            · exact Or.inr (Or.inr ⟨rt, orig, h⟩)
            · simp at h
      · exact ih e h
    · rcases List.mem_cons.mp he with h | h
      · exact Or.inl ⟨orig, h⟩
      · rcases List.mem_cons.mp h with h | h
        · exact Or.inr (Or.inl ⟨orig, h⟩)
        · rcases List.mem_cons.mp h with h | h
          · exact Or.inr (Or.inr ⟨rt, orig, h⟩)
          · simp at h

/-- Swap-step events are key-schema describes, clears, and copies. -/
theorem swapOutcome_shape (c : Config) (env : Env) :
    ∀ e ∈ (swapOutcome c env).1,
      (∃ n, e = Event.describe n) ∨ (∃ n, e = Event.clearTable n) ∨
      (∃ s t, e = Event.copyTable s t) := by
  intro e he
  simp only [swapOutcome] at he
  split at he
  · simp at he
  · exact swapLoop_shape _ _ e he

/-- Restore-table cleanup events are deletions of the given names. -/
theorem deletePhase_shape (dryRun : Bool) (names : List String) :
    ∀ e ∈ deletePhase dryRun names, ∃ n, n ∈ names ∧ e = Event.deleteTable n := by
  intro e he
  simp only [deletePhase] at he
  split at he
  · simp at he
  · rcases List.mem_map.mp he with ⟨n, hn, rfl⟩
    exact ⟨n, hn, rfl⟩

/-- The current variant's count check always reports success. -/
theorem verifyItemCounts_ok (counts : List (Nat × Nat)) :
    (verifyItemCounts counts).2 = true := rfl

/-- No restore initiation happens before validation. -/
theorem preValidateEvents_not_initiate (c : Config) (env : Env) :
    ∀ s t, Event.initiate s t ∉ preValidateEvents c env := by
  intro s t hmem
  rcases preValidateEvents_shape c env _ hmem with ⟨a, b, h⟩ | ⟨m, -, h⟩ | h | ⟨-, m, -, h⟩ <;>
    simp at h

/-- No table clear happens before validation. -/
theorem preValidateEvents_not_clear (c : Config) (env : Env) :
    ∀ n, Event.clearTable n ∉ preValidateEvents c env := by
  intro n hmem
  rcases preValidateEvents_shape c env _ hmem with ⟨a, b, h⟩ | ⟨m, -, h⟩ | h | ⟨-, m, -, h⟩ <;>
    simp at h

/-- No data copy happens before validation. -/
theorem preValidateEvents_not_copy (c : Config) (env : Env) :
    ∀ s t, Event.copyTable s t ∉ preValidateEvents c env := by
  intro s t hmem
  rcases preValidateEvents_shape c env _ hmem with ⟨a, b, h⟩ | ⟨m, -, h⟩ | h | ⟨-, m, -, h⟩ <;>
    simp at h

/-- No COUNT scan happens before validation. -/
theorem preValidateEvents_not_scan (c : Config) (env : Env) :
    ∀ n, Event.scanCount n ∉ preValidateEvents c env := by
  intro n hmem
  rcases preValidateEvents_shape c env _ hmem with ⟨a, b, h⟩ | ⟨m, -, h⟩ | h | ⟨-, m, -, h⟩ <;>
    simp at h

/-- Any table deleted before validation is a stale restore table: neither a
current restore table nor a production table. -/
theorem preValidateEvents_delete_safe (c : Config) (env : Env) :
    ∀ n, Event.deleteTable n ∈ preValidateEvents c env →
      n ∉ currentRestoreNames c ∧ n ∉ configureTableNames c.environment := by
  intro n hmem
  rcases preValidateEvents_shape c env _ hmem with ⟨a, b, h⟩ | ⟨m, -, h⟩ | h | ⟨-, m, hm, h⟩
  · exact absurd h (by simp)
  · exact absurd h (by simp)
  · exact absurd h (by simp)
  · have hnm : n = m := by
      injection h
    subst hnm
    exact (findOldRestoreTables_spec c.environment _ _ n hm).2

/-- When restore tables for this recovery point already exist, the
initiation step is skipped and reports success. -/
theorem initiateOutcome_skip (c : Config) (env : Env) (h : skipRestoreOf c env = true) :
    initiateOutcome c env = ([], true) := by
  simp [initiateOutcome, h]

/-- In dry-run mode the initiation step issues nothing and succeeds. -/
theorem initiateOutcome_dry (c : Config) (env : Env) (h : c.dryRun = true) :
    initiateOutcome c env = ([], true) := by
  simp [initiateOutcome, initiatePhase, h]

/-- When initiation succeeded and polling failed, the pipeline stops with
the timeout failure, leaving only the initiation and polling events. -/
theorem pipelineRun_timeout (c : Config) (env : Env)
    (hini : (initiateOutcome c env).2 = true) (hpol : (pollPhase c env).2 = false) :
    pipelineRun c env = ⟨(initiateOutcome c env).1 ++ (pollPhase c env).1 ++
      [Event.status "FAILED" (some "Restore operation timed out")],
      false, "FAILED", some "Restore operation timed out"⟩ := by
  simp only [pipelineRun, hini, hpol, if_true, Bool.false_eq_true, if_false, List.append_assoc]

/-- When initiation succeeded, the pipeline reaches the polling phase. -/
theorem pipelineRun_pollStart (c : Config) (env : Env)
    (hini : (initiateOutcome c env).2 = true) :
    Event.pollStart ∈ (pipelineRun c env).events := by
  have hp : Event.pollStart ∈ (pollPhase c env).1 := by
    simp [pollPhase]
  simp only [pipelineRun, hini, if_true]
  split
  · split
    · split
      · simp [hp]
      · simp [hp]
    · simp [hp]
  · simp [hp]

/-- When validation passed and lock acquisition failed, the run stops with
the lock failure status. -/
theorem postValidateRun_lockFail (c : Config) (env : Env)
    (hv : validateRestorePoint (ageOf c env) = ValidationResult.ok) (hl : env.lockOk = false) :
    postValidateRun c env = ⟨[Event.lockTry false,
      Event.status "FAILED" (some "Could not acquire restore lock")],
      false, "FAILED", some "Could not acquire restore lock"⟩ := by
  simp [postValidateRun, hv, hl]

/-- When validation failed, the run stops with the invalid-restore-point
status. -/
theorem postValidateRun_invalid (c : Config) (env : Env)
    (hv : validateRestorePoint (ageOf c env) ≠ ValidationResult.ok) :
    postValidateRun c env = ⟨[Event.status "FAILED" (some "Invalid restore point")],
      false, "FAILED", some "Invalid restore point"⟩ := by
  simp [postValidateRun, hv]

/-- When validation passed and the lock was acquired, the run's tail is the
lock acquisition followed by the locked pipeline. -/
theorem postValidateRun_locked (c : Config) (env : Env)
    (hv : validateRestorePoint (ageOf c env) = ValidationResult.ok) (hl : env.lockOk = true) :
    postValidateRun c env = ⟨Event.lockTry true :: (pipelineRun c env).events,
      (pipelineRun c env).success, (pipelineRun c env).finalStatus,
      (pipelineRun c env).errorMessage⟩ := by
  simp [postValidateRun, hv, hl]

/-- The locked pipeline never reports an item-count mismatch: the count
check is advisory in the current variant. -/
theorem pipelineRun_no_mismatch (c : Config) (env : Env) :
    (pipelineRun c env).errorMessage ≠ some "Item count mismatch" := by
  simp only [pipelineRun, verifyItemCounts_ok, if_true]
  split
  · split
    · split
      · simp
      · simp
    · simp
  · simp

/-- Possible error messages of a run of the current variant. -/
theorem runModelNew_no_mismatch (c : Config) (env : Env) :
    (runModelNew c env).errorMessage ≠ some "Item count mismatch" := by
  show (postValidateRun c env).errorMessage ≠ some "Item count mismatch"
  by_cases hv : validateRestorePoint (ageOf c env) = ValidationResult.ok
  · by_cases hl : env.lockOk = true
    · rw [postValidateRun_locked c env hv hl]
      exact pipelineRun_no_mismatch c env
    · rw [postValidateRun_lockFail c env hv (by simpa using hl)]
      simp
  · rw [postValidateRun_invalid c env hv]
    simp

/-- In dry-run mode the locked pipeline emits only the poll announcement
and status writes. -/
theorem pipelineRun_dry_events (c : Config) (env : Env) (hd : c.dryRun = true) :
    ∀ e ∈ (pipelineRun c env).events,
      e = Event.pollStart ∨ ∃ s err, e = Event.status s err := by
  have hini : initiateOutcome c env = ([], true) := initiateOutcome_dry c env hd
  have hver : verifyEventsOf c = [] := by simp [verifyEventsOf, hd]
  have hswp : swapOutcome c env = ([], true) := by simp [swapOutcome, hd]
  have hdel : deletePhase c.dryRun (currentRestoreNames c) = [] := by simp [deletePhase, hd]
  have hpol : (pollPhase c env).1 = [Event.pollStart] := by
    cases hm : env.maxRounds with
    | zero => simp [pollPhase, hm, pollLoop]
    | succ f => simp [pollPhase, hm, pollLoop, hd]
  intro e he
  by_cases hp : (pollPhase c env).2 = true
  · simp only [pipelineRun, hini, hver, hswp, hdel, hpol, verifyItemCounts_ok, if_true, hp,
      List.nil_append, List.append_nil] at he
    simp at he
    rcases he with rfl | rfl
    · exact Or.inl rfl
    · exact Or.inr ⟨_, _, rfl⟩
  · simp only [pipelineRun, hini, hver, hswp, hdel, hpol, verifyItemCounts_ok, if_true, hp,
      if_false, List.nil_append, List.append_nil] at he
    simp at he
    rcases he with rfl | rfl
    · exact Or.inl rfl
    · exact Or.inr ⟨_, _, rfl⟩

/-- In dry-run mode, with at least one poll round available, the pipeline
completes successfully. -/
theorem pipelineRun_dry_completes (c : Config) (env : Env) (hd : c.dryRun = true)
    (hm : 1 ≤ env.maxRounds) :
    (pipelineRun c env).success = true ∧ (pipelineRun c env).finalStatus = "COMPLETED" := by
  obtain ⟨f, hf⟩ : ∃ f, env.maxRounds = f + 1 := ⟨env.maxRounds - 1, by omega⟩
  have hini : initiateOutcome c env = ([], true) := initiateOutcome_dry c env hd
  have hswp : swapOutcome c env = ([], true) := by simp [swapOutcome, hd]
  have hpol : pollLoop c.dryRun (currentRestoreNames c) env.pollStatus 0 env.maxRounds
      = ([], true) := by
    rw [hf]
    simp [pollLoop, hd]
  simp [pipelineRun, hini, hswp, pollPhase, hpol, verifyItemCounts_ok]

/-- C1 (counterexample): the claim that a different recovery point always
yields a different restore table name is false.  `pointA` and `pointB` are
different recovery points — their absolute instants differ by half a
second — yet `restoreTableName` gives them the same name, because the
`strftime('%Y%m%d%H%M%S')` token drops sub-second precision (and the UTC
offset). -/
theorem restore_table_name_collision :
    instantMicros pointA ≠ instantMicros pointB ∧
    restoreTableName "quote-lambda-tf-quotes" pointA
      = restoreTableName "quote-lambda-tf-quotes" pointB :=
  ⟨by decide, rfl⟩

/-- C1 (amended): `restoreTableName` is pure and deterministic and the
token is derived from the recovery point, not the invocation wall clock —
once the recovery-point token is stored, `_get_restore_table_names` is
independent of `now`; and two recovery points yield different names for
the same table whenever their second-precision timestamp tokens differ. -/
theorem restore_table_name_deterministic :
    (∀ (tables : List String) (ts : String) (now₁ now₂ : PyDateTime),
      getRestoreTableNames tables (some ts) now₁ = getRestoreTableNames tables (some ts) now₂) ∧
    (∀ (t : String) (p q : PyDateTime),
      strftimeToken p ≠ strftimeToken q → restoreTableName t p ≠ restoreTableName t q) := by
  constructor
  · intro tables ts now₁ now₂
    rfl
  · intro t p q hne heq
    exact hne (string_append_left_cancel (t ++ "-restore-") _ _ heq)

/-- C1 (witness): the determinism theorem applied to two recovery points
one second apart. -/
theorem restore_table_name_deterministic_witness :
    restoreTableName "quote-lambda-tf-quotes" pointA
      ≠ restoreTableName "quote-lambda-tf-quotes" pointC :=
  restore_table_name_deterministic.2 "quote-lambda-tf-quotes" pointA pointC (by decide)

/-- C2 (counterexample): the claim that the integrity check always returns
success is false for the legacy variant, whose `_verify_item_counts`
returns failure on the mismatched pair (original 1, restored 0) — and its
`run` then records FAILED "Item count mismatch". -/
theorem verify_item_counts_hard_gate_cx :
    verifyItemCountsLegacy [(1, 0)] = false := by decide

/-- C2 (amended): in the current variant the count check is advisory: it
classifies each pair (equal / restored lower / restored higher, the latter
the anomalous warning case) and always returns success, and no run of the
current variant ever records FAILED "Item count mismatch"; the legacy
variant instead treats any mismatch as a hard failure. -/
theorem verify_item_counts_advisory :
    (∀ counts : List (Nat × Nat), (verifyItemCounts counts).2 = true) ∧
    (∀ o r : Nat,
      (o < r → classifyCounts o r = CountOutcome.restoreHigherWarn) ∧
      (r < o → classifyCounts o r = CountOutcome.restoreLower) ∧
      (r = o → classifyCounts o r = CountOutcome.equal)) ∧
    (∀ (c : Config) (env : Env), (runModelNew c env).errorMessage ≠ some "Item count mismatch") := by
  refine ⟨verifyItemCounts_ok, ?_, runModelNew_no_mismatch⟩
  intro o r
  refine ⟨?_, ?_, ?_⟩
  · intro h
    simp [classifyCounts, h]
  · intro h
    have h2 : ¬ o < r := by omega
    simp [classifyCounts, h, h2]
  · intro h
    have h2 : ¬ o < r := by omega
    have h3 : ¬ r < o := by omega
    simp [classifyCounts, h2, h3]

/-- C2 (witness): the advisory check applied to concrete counts, and a
concrete run whose error message is not a count mismatch. -/
theorem verify_item_counts_advisory_witness :
    classifyCounts 5 7 = CountOutcome.restoreHigherWarn ∧
    classifyCounts 5 3 = CountOutcome.restoreLower ∧
    classifyCounts 5 5 = CountOutcome.equal ∧
    (verifyItemCounts [(5, 7), (5, 3), (5, 5)]).2 = true ∧
    (runModelNew cfgDev baseEnv).errorMessage ≠ some "Item count mismatch" :=
  ⟨(verify_item_counts_advisory.2.1 5 7).1 (by norm_num),
   (verify_item_counts_advisory.2.1 5 3).2.1 (by norm_num),
   (verify_item_counts_advisory.2.1 5 5).2.2 rfl,
   verify_item_counts_advisory.1 _,
   verify_item_counts_advisory.2.2 cfgDev baseEnv⟩

/-- C6: ages above 35 days are rejected as TooOld — and such a run records
FAILED "Invalid restore point" with no restore initiation; strictly
negative ages are rejected as Future; ages between zero and 35 days
inclusive pass validation. -/
theorem validate_restore_point_window :
    (∀ age : Int, maxAgeMicros < age → validateRestorePoint age = ValidationResult.tooOld) ∧
    (∀ age : Int, age < 0 → validateRestorePoint age = ValidationResult.future) ∧
    (∀ age : Int, 0 ≤ age → age ≤ maxAgeMicros → validateRestorePoint age = ValidationResult.ok) ∧
    (∀ (c : Config) (env : Env), maxAgeMicros < ageOf c env →
      validateRestorePoint (ageOf c env) = ValidationResult.tooOld ∧
      (runModelNew c env).success = false ∧
      (runModelNew c env).errorMessage = some "Invalid restore point" ∧
      ∀ s t, Event.initiate s t ∉ (runModelNew c env).events) := by
  have h1 : ∀ age : Int, maxAgeMicros < age →
      validateRestorePoint age = ValidationResult.tooOld := by
    intro age h
    simp [validateRestorePoint, h]
  refine ⟨h1, ?_, ?_, ?_⟩
  · intro age h
    have hpos : (0 : Int) < maxAgeMicros := by norm_num [maxAgeMicros]
    have h2 : ¬ maxAgeMicros < age := by omega
    simp [validateRestorePoint, h2, h]
  · intro age h0 hle
    have h2 : ¬ maxAgeMicros < age := by omega
    have h3 : ¬ age < 0 := by omega
    simp [validateRestorePoint, h2, h3]
  · intro c env h
    have hv := h1 _ h
    have hne : validateRestorePoint (ageOf c env) ≠ ValidationResult.ok := by
      simp [hv]
    have hpost := postValidateRun_invalid c env hne
    refine ⟨hv, ?_, ?_, ?_⟩
    · show (postValidateRun c env).success = false
      rw [hpost]
    · show (postValidateRun c env).errorMessage = _
      rw [hpost]
    · intro s t hmem
      simp only [runModelNew, hpost, List.mem_append, List.mem_cons] at hmem
      rcases hmem with hpre | hmem
      · exact preValidateEvents_not_initiate c env s t hpre
      · simp at hmem

/-- C6 (witness): the validator applied at the boundary ages, and a run
observed 35 days plus one microsecond after its recovery point fails. -/
theorem validate_restore_point_window_witness :
    validateRestorePoint (maxAgeMicros + 1) = ValidationResult.tooOld ∧
    validateRestorePoint (-1) = ValidationResult.future ∧
    validateRestorePoint 0 = ValidationResult.ok ∧
    validateRestorePoint maxAgeMicros = ValidationResult.ok ∧
    (runModelNew cfgDev envTooOld).success = false :=
  ⟨validate_restore_point_window.1 _ (by norm_num),
   validate_restore_point_window.2.1 _ (by norm_num),
   validate_restore_point_window.2.2.1 0 le_rfl (by norm_num [maxAgeMicros]),
   validate_restore_point_window.2.2.1 maxAgeMicros (by norm_num [maxAgeMicros]) le_rfl,
   (validate_restore_point_window.2.2.2 cfgDev envTooOld (by decide)).2.1⟩

/-- C8: every deletion batch of `_clear_table` and every write batch of
`_copy_table_data` holds at most 25 (and at least one) operations, for
every table size; and the batches, concatenated in order, cover exactly
the rows of all scan pages followed to exhaustion — each row lands in
exactly one batch. -/
theorem swap_batches_bounded :
    (∀ (keyNames : List String) (pages : List (List Item)),
      (∀ b ∈ clearTableRequests keyNames pages, b.length ≤ 25 ∧ b ≠ []) ∧
      (clearTableRequests keyNames pages).flatten = pages.flatten.map (projectKey keyNames)) ∧
    (∀ pages : List (List Item),
      (∀ b ∈ copyTableRequests pages, b.length ≤ 25 ∧ b ≠ []) ∧
      (copyTableRequests pages).flatten = pages.flatten) := by
  constructor
  · intro keyNames pages
    exact ⟨fun b hb => clearTableRequests_mem hb, clearTableRequests_flatten keyNames pages⟩
  · intro pages
    exact ⟨fun b hb => copyTableRequests_mem hb, copyTableRequests_flatten pages⟩

/-- C8 (witness): the batch bound applied to a concrete one-row table. -/
theorem swap_batches_bounded_witness :
    (([[("id", "1")]] : List Item).length ≤ 25 ∧ ([[("id", "1")]] : List Item) ≠ []) ∧
    (copyTableRequests [[[("id", "1")]]]).flatten = [[("id", "1")]] := by
  constructor
  · exact (swap_batches_bounded.2 [[[("id", "1")]]]).1 [[("id", "1")]]
      (by simp [copyTableRequests, chunks25])
  · simpa using (swap_batches_bounded.2 [[[("id", "1")]]]).2

/-- C10: every name selected by the stale-restore-table search starts with
a production table name followed by "-restore-", is not a restore table
name of the current recovery point, and is not a production table name —
so the pre-run stale cleanup never deletes a production table or a current
restore table. -/
theorem find_old_restore_tables_safe :
    ∀ (environment : String) (currentNames allNames : List String),
      ∀ n ∈ findOldRestoreTables (configureTableNames environment) currentNames allNames,
        ((configureTableNames environment).any fun t => strStartsWith n (t ++ "-restore-")) = true ∧
        n ∉ currentNames ∧ n ∉ configureTableNames environment :=
  fun environment currentNames allNames =>
    findOldRestoreTables_spec environment currentNames allNames

/-- C10 (witness): the stale-table safety applied to a concrete listing
containing one stale restore table. -/
theorem find_old_restore_tables_safe_witness :
    ((configureTableNames "dev").any fun t => strStartsWith staleName (t ++ "-restore-")) = true ∧
    staleName ∉ ([] : List String) ∧ staleName ∉ configureTableNames "dev" :=
  find_old_restore_tables_safe "dev" [] [staleName] staleName (by decide)

/-- When the initiation step was skipped, the locked pipeline never issues
a restore initiation. -/
theorem pipelineRun_no_initiate (c : Config) (env : Env)
    (hini : initiateOutcome c env = ([], true)) :
    ∀ s t, Event.initiate s t ∉ (pipelineRun c env).events := by
  intro s t hmem
  simp only [pipelineRun, hini, verifyItemCounts_ok, if_true, List.nil_append] at hmem
  split at hmem
  · split at hmem
    · simp only [List.append_assoc, List.mem_append, List.mem_cons, List.not_mem_nil,
        or_false] at hmem
      rcases hmem with h | h | h | h | h
      · rcases pollPhase_shape c env _ h with h2 | ⟨n, h2⟩ <;> simp at h2
      · rcases verifyEventsOf_shape c _ h with ⟨n, h2⟩; simp at h2
      · rcases swapOutcome_shape c env _ h with ⟨n, h2⟩ | ⟨n, h2⟩ | ⟨a, b, h2⟩ <;> simp at h2
      · rcases deletePhase_shape _ _ _ h with ⟨n, -, h2⟩; simp at h2
      · simp at h
    · simp only [List.append_assoc, List.mem_append, List.mem_cons, List.not_mem_nil,
        or_false] at hmem
      rcases hmem with h | h | h | h
      · rcases pollPhase_shape c env _ h with h2 | ⟨n, h2⟩ <;> simp at h2
      · rcases verifyEventsOf_shape c _ h with ⟨n, h2⟩; simp at h2
      · rcases swapOutcome_shape c env _ h with ⟨n, h2⟩ | ⟨n, h2⟩ | ⟨a, b, h2⟩ <;> simp at h2
      · simp at h
  · simp only [List.append_assoc, List.mem_append, List.mem_cons, List.not_mem_nil,
      or_false] at hmem
    rcases hmem with h | h
    · rcases pollPhase_shape c env _ h with h2 | ⟨n, h2⟩ <;> simp at h2
    · simp at h

/-- C3 (amended): in every run, the trace is the pre-validation events,
then the validation, then the rest of the pipeline — so validation
precedes restore initiation, polling, count scans, clears, copies and the
post-swap restore-table deletion; the only events before validation are
the INITIALIZING status write, the existence describes, the stale-table
listing, and deletions of stale restore tables (never a production table,
never a current restore table). -/
theorem run_validates_before_pipeline :
    ∀ (c : Config) (env : Env),
      (runModelNew c env).events = preValidateEvents c env ++
        Event.validate (validateRestorePoint (ageOf c env)) :: (postValidateRun c env).events ∧
      (∀ e ∈ preValidateEvents c env,
        (∃ s err, e = Event.status s err) ∨ (∃ n, e = Event.describe n) ∨
        e = Event.listTables ∨
        (∃ n, e = Event.deleteTable n ∧ n ∉ currentRestoreNames c ∧
          n ∉ configureTableNames c.environment)) := by
  intro c env
  refine ⟨rfl, ?_⟩
  intro e he
  rcases preValidateEvents_shape c env e he with ⟨s, err, rfl⟩ | ⟨n, -, rfl⟩ | rfl | ⟨-, n, hn, rfl⟩
  · exact Or.inl ⟨s, err, rfl⟩
  · exact Or.inr (Or.inl ⟨n, rfl⟩)
  · exact Or.inr (Or.inr (Or.inl rfl))
  · have hs := findOldRestoreTables_spec c.environment _ _ n hn
    exact Or.inr (Or.inr (Or.inr ⟨n, rfl, hs.2.1, hs.2.2⟩))

/-- C3 (counterexample): the claim that no provider operation is issued
before validation is false — in a run with no current restore tables and
one stale restore table, the trace holds provider calls (describes, the
listing, and even a mutating stale-table delete) before the validation
marker. -/
theorem run_validates_before_pipeline_cx :
    ((runModelNew cfgDev envStale).events.takeWhile
      (fun e => !(Event.isValidate e))).any Event.isProviderCall = true := by decide

/-- C3 (witness): the amended theorem applied to the stale-table delete
event of a concrete run. -/
theorem run_validates_before_pipeline_witness :
    (∃ s err, Event.deleteTable staleName = Event.status s err) ∨
    (∃ n, Event.deleteTable staleName = Event.describe n) ∨
    Event.deleteTable staleName = Event.listTables ∨
    (∃ n, Event.deleteTable staleName = Event.deleteTable n ∧
      n ∉ currentRestoreNames cfgDev ∧ n ∉ configureTableNames cfgDev.environment) :=
  (run_validates_before_pipeline cfgDev envStale).2 (Event.deleteTable staleName) (by decide)

/-- C4 (amended): when validation passed but the lock cannot be acquired,
the run records FAILED with the lock message and exits non-zero, having
issued no restore initiation, no production-table clear, no copy, and no
deletion other than of stale restore tables (which the pre-lock cleanup
may already have deleted — the part of the original claim that fails). -/
theorem run_lock_failure_halts :
    ∀ (c : Config) (env : Env),
      validateRestorePoint (ageOf c env) = ValidationResult.ok → env.lockOk = false →
      (runModelNew c env).success = false ∧
      exitCode (runModelNew c env).success = 1 ∧
      (runModelNew c env).errorMessage = some "Could not acquire restore lock" ∧
      (∀ s t, Event.initiate s t ∉ (runModelNew c env).events) ∧
      (∀ n, Event.clearTable n ∉ (runModelNew c env).events) ∧
      (∀ s t, Event.copyTable s t ∉ (runModelNew c env).events) ∧
      (∀ n, Event.deleteTable n ∈ (runModelNew c env).events →
        n ∉ currentRestoreNames c ∧ n ∉ configureTableNames c.environment) := by
  intro c env hv hl
  have hpost := postValidateRun_lockFail c env hv hl
  have hsucc : (runModelNew c env).success = false := by
    show (postValidateRun c env).success = false
    rw [hpost]
  refine ⟨hsucc, ?_, ?_, ?_, ?_, ?_, ?_⟩
  · rw [hsucc]
    rfl
  · show (postValidateRun c env).errorMessage = _
    rw [hpost]
  · intro s t hmem
    simp only [runModelNew, hpost, List.mem_append, List.mem_cons] at hmem
    rcases hmem with hpre | hmem
    · exact preValidateEvents_not_initiate c env s t hpre
    · simp at hmem
  · intro n hmem
    simp only [runModelNew, hpost, List.mem_append, List.mem_cons] at hmem
    rcases hmem with hpre | hmem
    · exact preValidateEvents_not_clear c env n hpre
    · simp at hmem
  · intro s t hmem
    simp only [runModelNew, hpost, List.mem_append, List.mem_cons] at hmem
    rcases hmem with hpre | hmem
    · exact preValidateEvents_not_copy c env s t hpre
    · simp at hmem
  · intro n hmem
    simp only [runModelNew, hpost, List.mem_append, List.mem_cons] at hmem
    rcases hmem with hpre | hmem
    · exact preValidateEvents_delete_safe c env n hpre
    · simp at hmem

/-- C4 (counterexample): the claim that a failed lock acquisition means no
mutating provider operation was issued is false — with a stale restore
table present, the run deletes it before attempting (and failing) the lock
acquisition, and still ends FAILED. -/
theorem run_lock_failure_halts_cx :
    Event.lockTry false ∈ (runModelNew cfgDev envLockFail).events ∧
    (runModelNew cfgDev envLockFail).events.any Event.isMutating = true ∧
    (runModelNew cfgDev envLockFail).success = false := by decide

/-- C4 (witness): the amended theorem applied to a concrete run whose lock
acquisition fails. -/
theorem run_lock_failure_halts_witness :
    (runModelNew cfgDev envLockFail).success = false ∧
    exitCode (runModelNew cfgDev envLockFail).success = 1 ∧
    (runModelNew cfgDev envLockFail).errorMessage = some "Could not acquire restore lock" :=
  ⟨(run_lock_failure_halts cfgDev envLockFail (by decide) rfl).1,
   (run_lock_failure_halts cfgDev envLockFail (by decide) rfl).2.1,
   (run_lock_failure_halts cfgDev envLockFail (by decide) rfl).2.2.1⟩

/-- C5: when restore tables for this recovery point already exist —
whatever their states — the run never issues a restore initiation, and
(once validation passes and the lock is acquired) proceeds directly to
the polling phase. -/
theorem run_idempotent_reentry :
    ∀ (c : Config) (env : Env), existingOf c env ≠ [] →
      (∀ s t, Event.initiate s t ∉ (runModelNew c env).events) ∧
      (validateRestorePoint (ageOf c env) = ValidationResult.ok → env.lockOk = true →
        Event.pollStart ∈ (runModelNew c env).events) := by
  intro c env hex
  have hskip : skipRestoreOf c env = true := by
    simp [skipRestoreOf, List.isEmpty_iff, hex]
  have hini := initiateOutcome_skip c env hskip
  constructor
  · intro s t hmem
    simp only [runModelNew, List.mem_append, List.mem_cons] at hmem
    rcases hmem with hpre | hval | hpost
    · exact preValidateEvents_not_initiate c env s t hpre
    · simp at hval
    · by_cases hv : validateRestorePoint (ageOf c env) = ValidationResult.ok
      · by_cases hl : env.lockOk = true
        · rw [postValidateRun_locked c env hv hl] at hpost
          rcases List.mem_cons.mp hpost with h | h
          · simp at h
          · exact pipelineRun_no_initiate c env hini s t h
        · rw [postValidateRun_lockFail c env hv (by simpa using hl)] at hpost
          simp at hpost
      · rw [postValidateRun_invalid c env hv] at hpost
        simp at hpost
  · intro hv hl
    simp only [runModelNew, List.mem_append, List.mem_cons]
    right; right
    rw [postValidateRun_locked c env hv hl]
    exact List.mem_cons.mpr (Or.inr (pipelineRun_pollStart c env (by rw [hini])))

/-- C5 (witness): a run whose three restore tables already exist and are
ACTIVE initiates nothing and reaches the polling phase. -/
theorem run_idempotent_reentry_witness :
    Event.initiate "quote-lambda-tf-quotes-dev"
        "quote-lambda-tf-quotes-dev-restore-20250601120000"
      ∉ (runModelNew cfgDev envExisting).events ∧
    Event.pollStart ∈ (runModelNew cfgDev envExisting).events :=
  ⟨(run_idempotent_reentry cfgDev envExisting (by decide)).1 _ _,
   (run_idempotent_reentry cfgDev envExisting (by decide)).2 (by decide) rfl⟩

/-- C7: when readiness polling fails within its budget, the run records
FAILED "Restore operation timed out", no restore table of this recovery
point is deleted (the tables are left for inspection), and no production
table is modified — no clear, no copy, and any deletion in the trace is
of a stale table, never a production one. -/
theorem run_poll_timeout_preserves_tables :
    ∀ (c : Config) (env : Env),
      validateRestorePoint (ageOf c env) = ValidationResult.ok → env.lockOk = true →
      (initiateOutcome c env).2 = true → (pollPhase c env).2 = false →
      (runModelNew c env).success = false ∧
      (runModelNew c env).errorMessage = some "Restore operation timed out" ∧
      (∀ n, n ∈ currentRestoreNames c → Event.deleteTable n ∉ (runModelNew c env).events) ∧
      (∀ n, Event.clearTable n ∉ (runModelNew c env).events) ∧
      (∀ s t, Event.copyTable s t ∉ (runModelNew c env).events) ∧
      (∀ n, Event.deleteTable n ∈ (runModelNew c env).events →
        n ∉ configureTableNames c.environment) := by
  intro c env hv hl hini hpol
  have hpipe := pipelineRun_timeout c env hini hpol
  have hpost := postValidateRun_locked c env hv hl
  have hsucc : (runModelNew c env).success = false := by
    show (postValidateRun c env).success = false
    rw [hpost, hpipe]
  have herr : (runModelNew c env).errorMessage = some "Restore operation timed out" := by
    show (postValidateRun c env).errorMessage = _
    rw [hpost, hpipe]
  refine ⟨hsucc, herr, ?_, ?_, ?_, ?_⟩
  · intro n hcur hmem
    simp only [runModelNew, hpost, hpipe, List.append_assoc, List.mem_append,
      List.mem_cons, List.not_mem_nil, or_false] at hmem
    rcases hmem with hpre | hmem | hmem | hmem | hmem | hmem
    · exact (preValidateEvents_delete_safe c env n hpre).1 hcur
    · simp at hmem
    · simp at hmem
    · rcases initiateOutcome_shape c env _ hmem with ⟨a, b, h2⟩; simp at h2
    · rcases pollPhase_shape c env _ hmem with h2 | ⟨m, h2⟩ <;> simp at h2
    · simp at hmem
  · intro n hmem
    simp only [runModelNew, hpost, hpipe, List.append_assoc, List.mem_append,
      List.mem_cons, List.not_mem_nil, or_false] at hmem
    rcases hmem with hpre | hmem | hmem | hmem | hmem | hmem
    · exact preValidateEvents_not_clear c env n hpre
    · simp at hmem
    · simp at hmem
    · rcases initiateOutcome_shape c env _ hmem with ⟨a, b, h2⟩; simp at h2
    · rcases pollPhase_shape c env _ hmem with h2 | ⟨m, h2⟩ <;> simp at h2
    · simp at hmem
  · intro s t hmem
    simp only [runModelNew, hpost, hpipe, List.append_assoc, List.mem_append,
      List.mem_cons, List.not_mem_nil, or_false] at hmem
    rcases hmem with hpre | hmem | hmem | hmem | hmem | hmem
    · exact preValidateEvents_not_copy c env s t hpre
    · simp at hmem
    · simp at hmem
    · rcases initiateOutcome_shape c env _ hmem with ⟨a, b, h2⟩; simp at h2
    · rcases pollPhase_shape c env _ hmem with h2 | ⟨m, h2⟩ <;> simp at h2
    · simp at hmem
  · intro n hmem
    simp only [runModelNew, hpost, hpipe, List.append_assoc, List.mem_append,
      List.mem_cons, List.not_mem_nil, or_false] at hmem
    rcases hmem with hpre | hmem | hmem | hmem | hmem | hmem
    · exact (preValidateEvents_delete_safe c env n hpre).2
    · simp at hmem
    · simp at hmem
    · rcases initiateOutcome_shape c env _ hmem with ⟨a, b, h2⟩; simp at h2
    · rcases pollPhase_shape c env _ hmem with h2 | ⟨m, h2⟩ <;> simp at h2
    · simp at hmem

/-- C7 (witness): a concrete run with an exhausted poll budget fails with
the timeout reason, keeping its restore tables and production data. -/
theorem run_poll_timeout_preserves_tables_witness :
    (runModelNew cfgDev envTimeout).success = false ∧
    (runModelNew cfgDev envTimeout).errorMessage = some "Restore operation timed out" ∧
    Event.deleteTable "quote-lambda-tf-quotes-dev-restore-20250601120000"
      ∉ (runModelNew cfgDev envTimeout).events ∧
    Event.clearTable "quote-lambda-tf-quotes-dev" ∉ (runModelNew cfgDev envTimeout).events := by
  have h := run_poll_timeout_preserves_tables cfgDev envTimeout (by decide) rfl
    (by decide) (by decide)
  exact ⟨h.1, h.2.1, h.2.2.1 _ (by decide), h.2.2.2.1 _⟩

/-- C9: with dry-run enabled, a run issues no mutating provider call at
all, still writes its status record, and — when validation passes, the
lock is acquired and at least one poll round is available — ends
COMPLETED. -/
theorem run_dry_run_no_mutations :
    ∀ (c : Config) (env : Env), c.dryRun = true →
      (∀ e ∈ (runModelNew c env).events, Event.isMutating e = false) ∧
      Event.status "INITIALIZING" none ∈ (runModelNew c env).events ∧
      (validateRestorePoint (ageOf c env) = ValidationResult.ok → env.lockOk = true →
        1 ≤ env.maxRounds →
        (runModelNew c env).success = true ∧ (runModelNew c env).finalStatus = "COMPLETED") := by
  intro c env hd
  refine ⟨?_, ?_, ?_⟩
  · intro e he
    simp only [runModelNew, List.mem_append, List.mem_cons] at he
    rcases he with hpre | rfl | hpost
    · rcases preValidateEvents_shape c env e hpre with ⟨s, err, rfl⟩ | ⟨n, -, rfl⟩ | rfl |
        ⟨hdry, -, -, -⟩
      · rfl
      · rfl
      · rfl
      · rw [hdry] at hd
        exact Bool.noConfusion hd
    · rfl
    · by_cases hv : validateRestorePoint (ageOf c env) = ValidationResult.ok
      · by_cases hl : env.lockOk = true
        · rw [postValidateRun_locked c env hv hl] at hpost
          rcases List.mem_cons.mp hpost with rfl | hp
          · rfl
          · rcases pipelineRun_dry_events c env hd e hp with rfl | ⟨s, err, rfl⟩
            · rfl
            · rfl
        · rw [postValidateRun_lockFail c env hv (by simpa using hl)] at hpost
          simp only [List.mem_cons, List.not_mem_nil, or_false] at hpost
          rcases hpost with rfl | rfl <;> rfl
      · rw [postValidateRun_invalid c env hv] at hpost
        simp only [List.mem_cons, List.not_mem_nil, or_false] at hpost
        rcases hpost with rfl
        rfl
  · simp only [runModelNew, List.mem_append]
    left
    simp [preValidateEvents]
  · intro hv hl hm
    have hc := pipelineRun_dry_completes c env hd hm
    have hpost := postValidateRun_locked c env hv hl
    constructor
    · show (postValidateRun c env).success = true
      rw [hpost]
      exact hc.1
    · show (postValidateRun c env).finalStatus = "COMPLETED"
      rw [hpost]
      exact hc.2

/-- C9 (witness): a concrete dry run completes with no mutating call. -/
theorem run_dry_run_no_mutations_witness :
    Event.status "INITIALIZING" none ∈ (runModelNew cfgDry baseEnv).events ∧
    (runModelNew cfgDry baseEnv).success = true ∧
    (runModelNew cfgDry baseEnv).finalStatus = "COMPLETED" ∧
    Event.isMutating (Event.describe "quote-lambda-tf-quotes-dev-restore-20250601120000")
      = false :=
  ⟨(run_dry_run_no_mutations cfgDry baseEnv rfl).2.1,
   ((run_dry_run_no_mutations cfgDry baseEnv rfl).2.2 (by decide) rfl (by decide)).1,
   ((run_dry_run_no_mutations cfgDry baseEnv rfl).2.2 (by decide) rfl (by decide)).2,
   (run_dry_run_no_mutations cfgDry baseEnv rfl).1 _ (by decide)⟩
